import Mathlib

/-!
Shallow embedding of the BaseError class of the js-libraries repository
(packages/js-errors, current source: the documented BaseError with
`toString`, `toJSON` and the static `fromCatch` normalizer).

JavaScript objects are modelled over an explicit heap (a list of heap
objects addressed by position) so that object identity, reference-copying
and circular references are expressible.  Primitive values are embedded
directly in `JSValue`; an object value is a reference (`ref`) into the
heap.  JS numbers are modelled as integers: every numeric value appearing
in the verified claims is integral, and floating-point formatting is out
of scope.  Host-language details the spec places out of scope (stack-trace
capture by the `Error` base class, the base class's string coercion of the
constructor argument) are modelled as identity/absence and noted at the
relevant definitions.
-/

namespace JsErrors

/-- A JavaScript property key: either a string key or a symbol key
(symbols are identified by a numeric id; their description is irrelevant
to the code under verification). -/
inductive JSKey where
  | str (s : String)
  | sym (id : Nat)
deriving DecidableEq, Repr

/-- A JavaScript value: the primitives (`null`, `undefined`, strings,
numbers, booleans, symbols, bigints) or a reference to a heap object. -/
inductive JSValue where
  | null
  | undefined
  | str (s : String)
  | num (n : Int)
  | bool (b : Bool)
  | sym (id : Nat)
  | bigint (n : Int)
  | ref (addr : Nat)
deriving DecidableEq, Repr

/-- Whether a value is a primitive (everything except an object
reference), mirroring the JS notion used by the spec's primitive-rejection
rule: `null`, `undefined`, string, number, boolean, symbol, bigint. -/
def JSValue.isPrimitive : JSValue → Bool
  | .ref _ => false
  | _ => true

/-- One own property of a JS object: key, value, and its enumerable
attribute (`Object.entries` only sees enumerable string-keyed properties,
while the `in` operator and property reads also see non-enumerable
ones). -/
structure JSProperty where
  key : JSKey
  value : JSValue
  enumerable : Bool
deriving DecidableEq, Repr

/-- The BaseError class of js-errors.  `name` is the class field
initialized to "BaseError"; `metadata` is the constructor's record
parameter, kept as an insertion-ordered association list; `message` holds
the value passed to the constructor (the TS signature declares it
`string`, `fromCatch` passes `error.message` typed `any` straight
through; the host `Error` base class's coercion is out of scope per the
spec).  `stack` is the host-captured stack trace when available; `cause`
is the standard `Error` cause, `undefined` when never assigned. -/
structure BaseError where
  name : String
  message : JSValue
  metadata : List (String × JSValue)
  stack : Option String
  cause : JSValue
deriving DecidableEq, Repr

/-- A heap object: either a plain JS object (own properties in insertion
order, plus the value of an inherited `message` property when the
prototype chain provides one — `none` for plain literals whose chain has
no `message`), or an instance of the BaseError class. -/
inductive HeapObj where
  | plain (props : List JSProperty) (protoMessage : Option JSValue)
  | baseErr (e : BaseError)
deriving DecidableEq, Repr

/-- A JS heap: objects addressed by list position; allocation appends. -/
abbrev Heap := List HeapObj

/-- The host exceptions the embedded code can raise: the TypeError thrown
by the `in` operator on a primitive (the realization of the spec's
UnsupportedErrorValue condition), the TypeError thrown by
`JSON.stringify` on a circular structure, the TypeError thrown by
`JSON.stringify` on a BigInt, and a model-artifact error for a dangling
heap reference (which a real JS heap cannot produce). -/
inductive JSException where
  | typeErrorIn
  | typeErrorCircular
  | typeErrorBigInt
  | danglingRef
deriving DecidableEq, Repr

/-- Record update with JS object-spread semantics: if the key is already
present it is overwritten in place (keeping its original position),
otherwise the pair is appended.  This is the effect of
`\x7b...output, [key]: value\x7d` in `fromCatch`'s reduce and of the
fixed-key fields following the spread in `toJSON`. -/
def recordSet (r : List (String × JSValue)) (k : String) (v : JSValue) :
    List (String × JSValue) :=
  if r.any (fun kv => kv.1 == k) then
    r.map (fun kv => if kv.1 == k then (k, v) else kv)
  else
    r ++ [(k, v)]

/-- Build a record from a list of entries by repeated spread-insertion:
the semantics of `Object.entries(error).reduce((output, [key, value]) =>
(\x7b...output, [key]: value\x7d), \x7b\x7d)` in `fromCatch`. -/
def recordOfEntries (entries : List (String × JSValue)) :
    List (String × JSValue) :=
  entries.foldl (fun out kv => recordSet out kv.1 kv.2) []

/-- Property read on a record: the value at the first occurrence of the
key, if any. -/
def lookupRecord : List (String × JSValue) → String → Option JSValue
  | [], _ => none
  | (k2, v) :: rest, k => if k2 == k then some v else lookupRecord rest k

/-- `Object.entries` on a plain object's own properties: the enumerable
string-keyed ones, in insertion order, as key/value pairs.  (The JS
reordering of integer-like keys is not modelled; no verified claim
involves integer-like keys.) -/
def jsEntries (props : List JSProperty) : List (String × JSValue) :=
  props.filterMap (fun p =>
    match p.key with
    | .str s => if p.enumerable then some (s, p.value) else none
    | .sym _ => none)

/-- The `in` operator specialized to the key "message": true when the
object has an own property named "message" (enumerable or not) or
inherits one through its prototype chain. -/
def hasMessageIn (props : List JSProperty) (protoMessage : Option JSValue) :
    Bool :=
  props.any (fun p => p.key == JSKey.str "message") || protoMessage.isSome

/-- The property read `error.message`: the own property named "message"
when present, otherwise the inherited one, otherwise `undefined`. -/
def getMessageOf (props : List JSProperty) (protoMessage : Option JSValue) :
    JSValue :=
  match props.find? (fun p => p.key == JSKey.str "message") with
  | some p => p.value
  | none => protoMessage.getD JSValue.undefined

/-- Default text coercion of a value, as used by the template literals in
`toString`.  Object references render through the default
`Object.prototype.toString`; custom `toString` methods of nested objects
are outside the scope of the verified claims. -/
def jsToString : JSValue → String
  | .null => "null"
  | .undefined => "undefined"
  | .str s => s
  | .num n => toString n
  | .bool b => if b then "true" else "false"
  | .sym id => "Symbol(" ++ toString id ++ ")"
  | .bigint n => toString n
  | .ref _ => "[object Object]"

/-- Nullish coalescing `v ?? d`. -/
def jsNullish (v : JSValue) (d : JSValue) : JSValue :=
  match v with
  | .null => d
  | .undefined => d
  | _ => v

/-- JSON escaping of one character (the escapes relevant to the verified
claims; numeric `\u` escapes of other control characters are not
modelled). -/
def jsonEscapeChar (c : Char) : String :=
  if c = '"' then "\\\""
  else if c = '\\' then "\\\\"
  else if c = '\n' then "\\n"
  else if c = '\r' then "\\r"
  else if c = '\t' then "\\t"
  else String.singleton c

/-- JSON escaping of a string body. -/
def jsonEscape (s : String) : String :=
  String.join (s.data.map jsonEscapeChar)

/-- A JSON string literal. -/
def jsonQuote (s : String) : String :=
  "\"" ++ jsonEscape s ++ "\""

/-- The constructor `new BaseError(message, metadata)`: sets the class
field `name` to "BaseError" and stores the metadata record.  The host
`Error` base class captures a stack trace at construction; the model
leaves it unavailable (`none`).  `cause` is never assigned by the class,
so it is `undefined`. -/
def BaseError.mkNew (message : JSValue) (metadata : List (String × JSValue)) :
    BaseError :=
  { name := "BaseError", message := message, metadata := metadata,
    stack := none, cause := JSValue.undefined }

/-- `toString` of BaseError: renders the metadata entries as
`key:value` joined by single spaces, inside the parenthesized message
segment. -/
def BaseError.toString (e : BaseError) : String :=
  let metadataStr := String.intercalate " "
    (e.metadata.map (fun kv => kv.1 ++ ":" ++ jsToString kv.2))
  e.name ++ " (message: " ++ jsToString e.message ++ " " ++ metadataStr ++ ")"

/-- `toJSON` of BaseError: spread the metadata record, then set the fixed
keys `name`, `message`, `stack` (defaulting to the empty string) and
`cause` (defaulting to the sentinel "Unknown Cause"), each with
object-spread overwrite semantics. -/
def BaseError.toJSON (e : BaseError) : List (String × JSValue) :=
  recordSet (recordSet (recordSet (recordSet (recordOfEntries e.metadata)
    "name" (JSValue.str e.name))
    "message" e.message)
    "stack" (JSValue.str (e.stack.getD "")))
    "cause" (jsNullish e.cause (JSValue.str "Unknown Cause"))

/-- One serialization step of `JSON.stringify` values, parameterized by
the serializer used for values nested one level deeper.  `none` encodes
JS `undefined` as a serialization result (properties whose values
serialize to `undefined` are omitted).  Symbols and `undefined` serialize
to `undefined`; BigInt throws; a reference already on the current path is
a circular structure and throws. -/
def stringifyEntriesWith
    (f : JSValue → Except JSException (Option String)) :
    List (String × JSValue) → Except JSException (List String)
  | [] => .ok []
  | (k, v) :: rest =>
    match f v with
    | .error exn => .error exn
    | .ok none => stringifyEntriesWith f rest
    | .ok (some s) =>
      match stringifyEntriesWith f rest with
      | .error exn => .error exn
      | .ok parts => .ok ((jsonQuote k ++ ":" ++ s) :: parts)

/-- Serialization of the primitive values (shared by every fuel level). -/
def stringifyPrim : JSValue → Except JSException (Option String)
  | .null => .ok (some "null")
  | .undefined => .ok none
  | .str s => .ok (some (jsonQuote s))
  | .num n => .ok (some (toString n))
  | .bool b => .ok (some (if b then "true" else "false"))
  | .sym _ => .ok none
  | .bigint _ => .error .typeErrorBigInt
  | .ref _ => .error .typeErrorCircular

/-- Fuel-indexed `JSON.stringify` of a value.  `visited` is the set of
object addresses on the current serialization path: revisiting one is a
circular structure and throws, exactly as `JSON.stringify` does.  A plain
object serializes its enumerable own string-keyed entries; a BaseError
nested inside a stringified structure serializes through its `toJSON`
record.  The fuel only bounds the nesting depth: `jsonStringify` supplies
one unit per heap object plus one, which no acyclic path can exhaust. -/
def stringifyGo (h : Heap) : Nat → List Nat → JSValue →
    Except JSException (Option String)
  | 0, _, v => stringifyPrim v
  | fuel + 1, visited, v =>
    match v with
    | .ref a =>
      if a ∈ visited then .error .typeErrorCircular
      else
        match h[a]? with
        | none => .error .danglingRef
        | some obj =>
          match stringifyEntriesWith (stringifyGo h fuel (a :: visited))
              (match obj with
               | .plain props _ => jsEntries props
               | .baseErr e => BaseError.toJSON e) with
          | .error exn => .error exn
          | .ok parts =>
            .ok (some ("\x7b" ++ String.intercalate "," parts ++ "\x7d"))
    | prim => stringifyPrim prim

/-- `JSON.stringify(v)` over heap `h`. -/
def jsonStringify (h : Heap) (v : JSValue) :
    Except JSException (Option String) :=
  stringifyGo h (h.length + 1) [] v

/-- Lift a serialization outcome to the message value `fromCatch` passes
to the constructor: a produced string is the message, an `undefined`
outcome stays `undefined`, an exception propagates. -/
def jsonMessage : Except JSException (Option String) →
    Except JSException JSValue
  | .error exn => .error exn
  | .ok none => .ok JSValue.undefined
  | .ok (some s) => .ok (JSValue.str s)

/-- The static `BaseError.fromCatch(error)`:
if the value is already a BaseError instance, return that very reference
with the heap untouched; otherwise read `'message' in error ?
error.message : JSON.stringify(error)` (the `in` operator throws a
TypeError when `error` is a primitive, and `JSON.stringify` throws on
circular structures), build the metadata record from
`Object.entries(error)` by spread-reduce, and allocate a fresh BaseError
constructed from the extracted message and metadata. -/
def BaseError.fromCatch (h : Heap) (error : JSValue) :
    Except JSException (Heap × JSValue) :=
  match error with
  | .ref a =>
    match h[a]? with
    | some (.baseErr _) => .ok (h, .ref a)
    | some (.plain props protoMsg) =>
      match (if hasMessageIn props protoMsg then
               .ok (getMessageOf props protoMsg)
             else jsonMessage (jsonStringify h (.ref a))) with
      | .error exn => .error exn
      | .ok message =>
        .ok (h ++ [.baseErr (BaseError.mkNew message
              (recordOfEntries (jsEntries props)))], .ref h.length)
    | none => .error .danglingRef
  | _ => .error .typeErrorIn

/-! Concrete heaps used by the witnesses and counterexamples. -/

/-- A single object with a circular self-reference and no message
property: `o = \x7bself: o\x7d`. -/
def circSelfHeap : Heap := [.plain [⟨.str "self", .ref 0, true⟩] none]

/-- A two-object cycle with no message property anywhere:
`p = \x7ba: q\x7d; q = \x7bb: p\x7d`. -/
def circPairHeap : Heap :=
  [.plain [⟨.str "a", .ref 1, true⟩] none,
   .plain [⟨.str "b", .ref 0, true⟩] none]

/-- A single object with a circular self-reference under the key "loop"
and no message property. -/
def selfLoopHeap : Heap := [.plain [⟨.str "loop", .ref 0, true⟩] none]

/-- The spec's message-passthrough example:
`\x7bmessage: "Custom error", code: "ERR_123"\x7d`. -/
def msgCodeHeap : Heap :=
  [.plain [⟨.str "message", .str "Custom error", true⟩,
           ⟨.str "code", .str "ERR_123", true⟩] none]

/-- The spec's circular-with-message example:
`o = \x7bmessage: "Circular error"\x7d; o.self = o`. -/
def circMsgHeap : Heap :=
  [.plain [⟨.str "message", .str "Circular error", true⟩,
           ⟨.str "self", .ref 0, true⟩] none]

/-- An object with no own properties whose prototype chain provides an
inherited `message`. -/
def inheritedMsgHeap : Heap := [.plain [] (some (.str "Inherited"))]

/-- The empty plain object `\x7b\x7d`. -/
def emptyObjHeap : Heap := [.plain [] none]

/-- The spec's fallback-serialization example:
`\x7bstatus: 500, details: "Server error"\x7d`. -/
def statusHeap : Heap :=
  [.plain [⟨.str "status", .num 500, true⟩,
           ⟨.str "details", .str "Server error", true⟩] none]

/-- An object with a single boolean property and no message. -/
def boolPropHeap : Heap := [.plain [⟨.str "ok", .bool false, true⟩] none]

/-- A directly constructed BaseError with two metadata entries, as in the
repository's toJSON merge test. -/
def exampleStructured : BaseError :=
  BaseError.mkNew (.str "Test error")
    [("userId", .num 123), ("requestId", .str "abc-123")]

/-- Own properties of a foreign object with an own enumerable `message`,
a symbol-keyed property, a non-enumerable own property and an extra data
property. -/
def mixedProps : List JSProperty :=
  [⟨.str "message", .str "m", true⟩,
   ⟨.sym 7, .str "symbol value", true⟩,
   ⟨.str "hidden", .num 1, false⟩,
   ⟨.str "code", .str "E7", true⟩]

/-- Heap holding the mixed-property object. -/
def mixedPropsHeap : Heap := [.plain mixedProps none]

/-- The heap after normalizing the mixed-property object: only the
enumerable string-keyed properties reach the metadata. -/
def mixedResultHeap : Heap :=
  mixedPropsHeap ++ [.baseErr (BaseError.mkNew (.str "m")
    [("message", .str "m"), ("code", .str "E7")])]

/-- A native `new Error("Standard error message")`: own non-enumerable
`message` and `stack`, and an inherited empty `message` on the prototype
chain. -/
def stdErrorHeap : Heap :=
  [.plain [⟨.str "message", .str "Standard error message", false⟩,
           ⟨.str "stack", .str "Error: Standard error message", false⟩]
    (some (.str ""))]

/-- The heap after normalizing `stdErrorHeap`'s object. -/
def stdErrorHeap2 : Heap :=
  stdErrorHeap ++ [.baseErr (BaseError.mkNew (.str "Standard error message") [])]

/-- Own properties of an error-like object carrying its own `name`
("TypeError") as an enumerable property next to its message. -/
def namedErrorProps : List JSProperty :=
  [⟨.str "name", .str "TypeError", true⟩,
   ⟨.str "message", .str "Type mismatch", true⟩]

/-- Heap holding the "TypeError"-named object. -/
def namedErrorHeap : Heap := [.plain namedErrorProps none]

/-- The heap after normalizing the "TypeError"-named object: the result
is named "BaseError", the input's `name` survives only in metadata. -/
def namedErrorResult : Heap :=
  namedErrorHeap ++ [.baseErr (BaseError.mkNew (.str "Type mismatch")
    [("name", .str "TypeError"), ("message", .str "Type mismatch")])]

/-! Helper lemmas. -/

/-- Reading below the length of the left part of an append. -/
theorem getElem_append_of_lt {α : Type} (l l2 : List α) (i : Nat)
    (hi : i < l.length) : (l ++ l2)[i]? = l[i]? := by
  induction l generalizing i with
  | nil => cases hi
  | cons x xs ih =>
    cases i with
    | zero => simp
    | succ j =>
      simp only [List.cons_append, List.getElem?_cons_succ]
      exact ih j (Nat.lt_of_succ_lt_succ hi)

/-- Reading the freshly appended element. -/
theorem getElem_append_self {α : Type} (l : List α) (x : α) :
    (l ++ [x])[l.length]? = some x := by
  induction l with
  | nil => rfl
  | cons y ys ih =>
    simp only [List.cons_append, List.length_cons, List.getElem?_cons_succ]
    exact ih

/-- Spread-insertion of an absent key appends it. -/
theorem recordSet_of_not_mem (r : List (String × JSValue)) (k : String)
    (v : JSValue) (hk : ∀ kv ∈ r, kv.1 ≠ k) :
    recordSet r k v = r ++ [(k, v)] := by
  unfold recordSet
  rw [if_neg]
  simp only [List.any_eq_true, beq_iff_eq, not_exists, not_and]
  exact fun kv hmem => hk kv hmem

/-- Folding spread-insertions of pairwise-distinct fresh keys just
appends the entries. -/
theorem foldl_recordSet_append (l acc : List (String × JSValue))
    (hnd : (l.map Prod.fst).Nodup)
    (hdisj : ∀ kv ∈ l, ∀ kv2 ∈ acc, kv2.1 ≠ kv.1) :
    l.foldl (fun out kv => recordSet out kv.1 kv.2) acc = acc ++ l := by
  induction l generalizing acc with
  | nil => simp
  | cons kv rest ih =>
    rw [List.foldl_cons,
      recordSet_of_not_mem acc kv.1 kv.2
        (fun kv2 h2 => hdisj kv (by simp) kv2 h2)]
    rw [ih (acc ++ [(kv.1, kv.2)]) (by simpa using hnd.of_cons)]
    · simp
    · intro kv' hmem' kv2 hmem2
      rcases List.mem_append.mp hmem2 with hacc | hsingle
      · exact hdisj kv' (by simp [hmem']) kv2 hacc
      · have hkv2 : kv2 = (kv.1, kv.2) := by simpa using hsingle
        subst hkv2
        simp only [List.map_cons, List.nodup_cons] at hnd
        intro heq
        exact hnd.1 (heq ▸ List.mem_map_of_mem Prod.fst hmem')

/-- A record built from entries with pairwise-distinct keys is those
entries themselves. -/
theorem recordOfEntries_eq_self (l : List (String × JSValue))
    (hnd : (l.map Prod.fst).Nodup) : recordOfEntries l = l := by
  simpa using foldl_recordSet_append l [] hnd (by simp)

/-- Lookup over an append tries the left record first. -/
theorem lookupRecord_append (r1 r2 : List (String × JSValue)) (k : String) :
    lookupRecord (r1 ++ r2) k =
      match lookupRecord r1 k with
      | some v => some v
      | none => lookupRecord r2 k := by
  induction r1 with
  | nil => simp [lookupRecord]
  | cons kv0 rest ih =>
    by_cases hb : kv0.1 = k
    · simp [lookupRecord, hb]
    · simp [lookupRecord, hb, ih]

/-- A record none of whose keys is `k` has no binding for `k`. -/
theorem lookupRecord_eq_none (r : List (String × JSValue)) (k : String)
    (hall : ∀ kv ∈ r, kv.1 ≠ k) : lookupRecord r k = none := by
  induction r with
  | nil => rfl
  | cons kv0 rest ih =>
    have hb : kv0.1 ≠ k := hall kv0 (by simp)
    simp only [lookupRecord]
    rw [if_neg (by simpa using hb)]
    exact ih (fun kv hmem => hall kv (by simp [hmem]))

/-- Looking up the overwritten key in the in-place update sees the new
value exactly when the key was present. -/
theorem lookupRecord_map_overwrite (r : List (String × JSValue))
    (k : String) (v : JSValue) :
    lookupRecord (r.map (fun kv => if kv.1 == k then (k, v) else kv)) k
      = if r.any (fun kv => kv.1 == k) then some v else none := by
  induction r with
  | nil => simp [lookupRecord]
  | cons kv0 rest ih =>
    rw [List.map_cons]
    by_cases hb : kv0.1 = k
    · rw [if_pos (by simpa using hb)]
      simp [lookupRecord, hb]
    · rw [if_neg (by simpa using hb)]
      have hfst : (kv0.1 == k) = false := by simpa using hb
      cases kv0 with
      | mk k0 v0 =>
        simp only [lookupRecord, List.any_cons, hfst, Bool.false_or]
        rw [if_neg (by simp [hfst]), ih]

/-- The in-place update of key `k` is invisible to lookups of a
different key. -/
theorem lookupRecord_map_overwrite_other (r : List (String × JSValue))
    (k k2 : String) (v : JSValue) (hne : k2 ≠ k) :
    lookupRecord (r.map (fun kv => if kv.1 == k then (k, v) else kv)) k2
      = lookupRecord r k2 := by
  induction r with
  | nil => rfl
  | cons kv0 rest ih =>
    rw [List.map_cons]
    by_cases hb : kv0.1 = k
    · rw [if_pos (by simpa using hb)]
      have hk2 : ¬ (k = k2) := fun heq => hne heq.symm
      cases kv0 with
      | mk k0 v0 =>
        have hb0 : k0 = k := hb
        subst hb0
        simp only [lookupRecord]
        rw [if_neg (by simpa using hk2), if_neg (by simpa using hk2), ih]
    · rw [if_neg (by simpa using hb)]
      cases kv0 with
      | mk k0 v0 =>
        by_cases hb2 : k0 = k2
        · simp only [lookupRecord]
          rw [if_pos (by simpa using hb2), if_pos (by simpa using hb2)]
        · simp only [lookupRecord]
          rw [if_neg (by simpa using hb2), if_neg (by simpa using hb2), ih]

/-- Looking up the key just set by `recordSet` yields the new value. -/
theorem lookupRecord_recordSet_self (r : List (String × JSValue))
    (k : String) (v : JSValue) :
    lookupRecord (recordSet r k v) k = some v := by
  unfold recordSet
  by_cases hany : r.any (fun kv => kv.1 == k)
  · rw [if_pos hany, lookupRecord_map_overwrite, if_pos hany]
  · rw [if_neg hany, lookupRecord_append]
    have hall : ∀ kv ∈ r, kv.1 ≠ k := by
      intro kv hmem heq
      exact hany (List.any_eq_true.mpr ⟨kv, hmem, by simpa using heq⟩)
    rw [lookupRecord_eq_none r k hall]
    simp [lookupRecord]

/-- Looking up a different key is unaffected by `recordSet`. -/
theorem lookupRecord_recordSet_other (r : List (String × JSValue))
    (k k2 : String) (v : JSValue) (hne : k2 ≠ k) :
    lookupRecord (recordSet r k v) k2 = lookupRecord r k2 := by
  unfold recordSet
  by_cases hany : r.any (fun kv => kv.1 == k)
  · rw [if_pos hany, lookupRecord_map_overwrite_other r k k2 v hne]
  · rw [if_neg hany, lookupRecord_append]
    cases hf : lookupRecord r k2 with
    | some x => rfl
    | none => simp [lookupRecord, Ne.symm hne]

/-- An entry survives a `recordSet` of a different key. -/
theorem mem_recordSet_of_ne (r : List (String × JSValue)) (k k2 : String)
    (v v2 : JSValue) (hmem : (k2, v2) ∈ r) (hne : k2 ≠ k) :
    (k2, v2) ∈ recordSet r k v := by
  unfold recordSet
  by_cases hany : r.any (fun kv => kv.1 == k)
  · rw [if_pos hany]
    have heq : (fun kv : String × JSValue =>
        if kv.1 == k then (k, v) else kv) (k2, v2) = (k2, v2) := by
      simp [hne]
    exact heq ▸ List.mem_map_of_mem _ hmem
  · rw [if_neg hany]
    exact List.mem_append_left _ hmem

/-- Revisiting an address on the current path throws the circular
TypeError at every fuel level. -/
theorem stringifyGo_mem_visited (h : Heap) (fuel : Nat) (visited : List Nat)
    (a : Nat) (hmem : a ∈ visited) :
    stringifyGo h fuel visited (.ref a) = .error .typeErrorCircular := by
  cases fuel with
  | zero => rfl
  | succ n => simp [stringifyGo, hmem]

/-- Characterization of a successful `fromCatch` on a plain (non-BaseError)
object: the result is a fresh BaseError appended to the heap, whose
metadata is the spread-reduce of the object's entries, and the returned
value is the fresh reference. -/
theorem fromCatch_plain_ok (h : Heap) (a : Nat) (props : List JSProperty)
    (pm : Option JSValue) (h2 : Heap) (v : JSValue)
    (ha : h[a]? = some (.plain props pm))
    (hok : BaseError.fromCatch h (.ref a) = .ok (h2, v)) :
    ∃ msg : JSValue,
      h2 = h ++ [.baseErr (BaseError.mkNew msg
        (recordOfEntries (jsEntries props)))] ∧
      v = .ref h.length := by
  cases hm : hasMessageIn props pm with
  | true =>
    have heq : BaseError.fromCatch h (.ref a)
        = .ok (h ++ [.baseErr (BaseError.mkNew (getMessageOf props pm)
            (recordOfEntries (jsEntries props)))], .ref h.length) := by
      simp [BaseError.fromCatch, ha, hm]
    rw [heq] at hok
    injection hok with hpair
    injection hpair with h1 h2eq
    exact ⟨getMessageOf props pm, h1.symm, h2eq.symm⟩
  | false =>
    cases hs : jsonStringify h (.ref a) with
    | error exn =>
      have heq : BaseError.fromCatch h (.ref a) = .error exn := by
        simp [BaseError.fromCatch, ha, hm, hs, jsonMessage]
      rw [heq] at hok
      exact Except.noConfusion hok
    | ok os =>
      cases os with
      | none =>
        have heq : BaseError.fromCatch h (.ref a)
            = .ok (h ++ [.baseErr (BaseError.mkNew JSValue.undefined
                (recordOfEntries (jsEntries props)))], .ref h.length) := by
          simp [BaseError.fromCatch, ha, hm, hs, jsonMessage]
        rw [heq] at hok
        injection hok with hpair
        injection hpair with h1 h2eq
        exact ⟨JSValue.undefined, h1.symm, h2eq.symm⟩
      | some s =>
        have heq : BaseError.fromCatch h (.ref a)
            = .ok (h ++ [.baseErr (BaseError.mkNew (JSValue.str s)
                (recordOfEntries (jsEntries props)))], .ref h.length) := by
          simp [BaseError.fromCatch, ha, hm, hs, jsonMessage]
        rw [heq] at hok
        injection hok with hpair
        injection hpair with h1 h2eq
        exact ⟨JSValue.str s, h1.symm, h2eq.symm⟩

/-! The claims. -/

/-- C1: Normalization is idempotent and identity-preserving: applying
`BaseError.fromCatch` to a value that is already a BaseError instance
returns the very same reference and leaves the heap (hence the object)
unchanged. -/
theorem c1_normalize_idempotent (h : Heap) (a : Nat) (e : BaseError)
    (ha : h[a]? = some (.baseErr e)) :
    BaseError.fromCatch h (.ref a) = .ok (h, .ref a) := by
  simp [BaseError.fromCatch, ha]

/-- Witness for C1 at a concrete heap holding one BaseError instance. -/
theorem c1_witness :
    BaseError.fromCatch [.baseErr (BaseError.mkNew (.str "x") [])] (.ref 0)
      = .ok ([.baseErr (BaseError.mkNew (.str "x") [])], .ref 0) :=
  c1_normalize_idempotent [.baseErr (BaseError.mkNew (.str "x") [])] 0
    (BaseError.mkNew (.str "x") []) rfl

/-- C2 (amended): every primitive input — null, undefined, string,
number, boolean, symbol, bigint — makes `fromCatch` throw (the TypeError
raised by applying the `in` operator to a primitive, realizing the
spec's UnsupportedErrorValue condition) and produce no StructuredError.
The original claim's further assertion that primitives are the only
failing inputs is refuted by `c2_counterexample`. -/
theorem c2_primitives_rejected (h : Heap) (v : JSValue)
    (hp : v.isPrimitive = true) :
    BaseError.fromCatch h v = .error .typeErrorIn := by
  cases v <;> simp_all [JSValue.isPrimitive, BaseError.fromCatch]

/-- Witness for C2 at the concrete primitive input 404. -/
theorem c2_witness :
    BaseError.fromCatch [] (.num 404) = .error .typeErrorIn :=
  c2_primitives_rejected [] (.num 404) rfl

/-- C2 counterexample: a non-primitive input on which normalization also
fails — the circular object `o = \x7bself: o\x7d` (no message property)
makes `fromCatch` throw the circular-structure TypeError, so primitives
are not the only inputs on which normalize fails. -/
theorem c2_counterexample :
    (JSValue.ref 0).isPrimitive = false ∧
    BaseError.fromCatch circSelfHeap (.ref 0)
      = .error .typeErrorCircular :=
  ⟨rfl, rfl⟩

/-- C3 (amended): for every input object without a message property, the
fallback serialization step always terminates (it is a total function of
the model, so it cannot hang), and any exception it raises — rather than
a substituted marker or a graceful degradation — is propagated by
normalization, which then returns no StructuredError; in particular, on
a circular reference the serializer actually reaches, here an object
whose sole own property is an enumerable self-reference under a key
other than "message", `JSON.stringify` detects the cycle and throws the
circular-structure TypeError, which normalization propagates.  (A cycle
hidden behind a non-enumerable or symbol-keyed property is never reached
by the serializer and does not throw, which is why the amendment is
limited to reached cycles.) -/
theorem c3_circular_serialization_throws :
    (∀ (h : Heap) (a : Nat) (props : List JSProperty) (pm : Option JSValue)
        (exn : JSException),
      h[a]? = some (.plain props pm) →
      hasMessageIn props pm = false →
      jsonStringify h (.ref a) = .error exn →
      BaseError.fromCatch h (.ref a) = .error exn) ∧
    (∀ (h : Heap) (a : Nat) (k : String),
      h[a]? = some (.plain [⟨.str k, .ref a, true⟩] none) →
      k ≠ "message" →
      jsonStringify h (.ref a) = .error .typeErrorCircular ∧
      BaseError.fromCatch h (.ref a) = .error .typeErrorCircular) := by
  constructor
  · intro h a props pm exn ha hm hs
    simp [BaseError.fromCatch, ha, hm, hs, jsonMessage]
  · intro h a k ha hk
    have hmsg : hasMessageIn [⟨JSKey.str k, JSValue.ref a, true⟩] none
        = false := by
      simp [hasMessageIn, hk]
    have hloop : stringifyGo h h.length [a] (.ref a)
        = .error .typeErrorCircular :=
      stringifyGo_mem_visited h h.length [a] a (by simp)
    have hstr : jsonStringify h (.ref a) = .error .typeErrorCircular := by
      simp [jsonStringify, stringifyGo, ha, jsEntries,
        stringifyEntriesWith, hloop]
    exact ⟨hstr, by simp [BaseError.fromCatch, ha, hmsg, hstr, jsonMessage]⟩

/-- Witness for C3's amended statement at a concrete self-loop: the
serializer throws the circular TypeError and normalization propagates
it. -/
theorem c3_witness :
    jsonStringify selfLoopHeap (.ref 0) = .error .typeErrorCircular ∧
    BaseError.fromCatch selfLoopHeap (.ref 0)
      = .error .typeErrorCircular :=
  c3_circular_serialization_throws.2 selfLoopHeap 0 "loop" rfl (by decide)

/-- C3 counterexample: the two-object cycle `p = \x7ba: q\x7d;
q = \x7bb: p\x7d` has no message property anywhere, yet normalization
throws rather than returning a StructuredError, refuting the claim that
the serialization step never throws on circular inputs. -/
theorem c3_counterexample :
    hasMessageIn [⟨JSKey.str "a", JSValue.ref 1, true⟩] none = false ∧
    BaseError.fromCatch circPairHeap (.ref 0)
      = .error .typeErrorCircular :=
  ⟨rfl, rfl⟩

/-- C4: Message passthrough: for every input object with an own or
inherited `message` property, normalization succeeds — serialization is
never attempted — and the result's message is that property's value,
regardless of the rest of the object's structure; concretely,
normalizing `\x7bmessage: "Custom error", code: "ERR_123"\x7d` yields
message "Custom error" with metadata entry code "ERR_123", and
normalizing the circular `o = \x7bmessage: "Circular error"\x7d;
o.self = o` neither throws nor hangs and yields message
"Circular error". -/
theorem c4_message_passthrough :
    (∀ (h : Heap) (a : Nat) (props : List JSProperty) (pm : Option JSValue),
      h[a]? = some (.plain props pm) →
      hasMessageIn props pm = true →
      BaseError.fromCatch h (.ref a)
        = .ok (h ++ [.baseErr (BaseError.mkNew (getMessageOf props pm)
            (recordOfEntries (jsEntries props)))], .ref h.length)) ∧
    BaseError.fromCatch msgCodeHeap (.ref 0)
      = .ok (msgCodeHeap ++ [.baseErr (BaseError.mkNew (.str "Custom error")
          [("message", .str "Custom error"), ("code", .str "ERR_123")])],
        .ref 1) ∧
    lookupRecord [("message", JSValue.str "Custom error"),
      ("code", JSValue.str "ERR_123")] "code" = some (.str "ERR_123") ∧
    BaseError.fromCatch circMsgHeap (.ref 0)
      = .ok (circMsgHeap ++ [.baseErr (BaseError.mkNew (.str "Circular error")
          [("message", .str "Circular error"), ("self", .ref 0)])],
        .ref 1) := by
  refine ⟨?_, rfl, rfl, rfl⟩
  intro h a props pm ha hm
  simp [BaseError.fromCatch, ha, hm]

/-- Witness for C4's universally quantified part, at an object whose
`message` is inherited from its prototype chain. -/
theorem c4_witness :
    BaseError.fromCatch inheritedMsgHeap (.ref 0)
      = .ok (inheritedMsgHeap ++
          [.baseErr (BaseError.mkNew (.str "Inherited") [])], .ref 1) :=
  c4_message_passthrough.1 inheritedMsgHeap 0 [] (some (.str "Inherited"))
    rfl rfl

/-- C5: Fallback serialization: for every non-primitive input without a
`message` property (own or inherited) whose JSON serialization
succeeds, the result's message is exactly that canonical JSON text;
concretely, normalizing `\x7b\x7d` yields message "\x7b\x7d" with empty
metadata, and normalizing `\x7bstatus: 500, details: "Server error"\x7d`
yields a message that contains the texts "status" and "500". -/
theorem c5_fallback_serialization :
    (∀ (h : Heap) (a : Nat) (props : List JSProperty) (pm : Option JSValue)
        (s : String),
      h[a]? = some (.plain props pm) →
      hasMessageIn props pm = false →
      jsonStringify h (.ref a) = .ok (some s) →
      BaseError.fromCatch h (.ref a)
        = .ok (h ++ [.baseErr (BaseError.mkNew (.str s)
            (recordOfEntries (jsEntries props)))], .ref h.length)) ∧
    BaseError.fromCatch emptyObjHeap (.ref 0)
      = .ok (emptyObjHeap ++
          [.baseErr (BaseError.mkNew (.str "\x7b\x7d") [])], .ref 1) ∧
    BaseError.fromCatch statusHeap (.ref 0)
      = .ok (statusHeap ++ [.baseErr (BaseError.mkNew
          (.str "\x7b\"status\":500,\"details\":\"Server error\"\x7d")
          [("status", .num 500), ("details", .str "Server error")])],
        .ref 1) ∧
    (∃ pre post : String,
      "\x7b\"status\":500,\"details\":\"Server error\"\x7d"
        = pre ++ "status" ++ post) ∧
    (∃ pre post : String,
      "\x7b\"status\":500,\"details\":\"Server error\"\x7d"
        = pre ++ "500" ++ post) := by
  refine ⟨?_, rfl, rfl,
    ⟨"\x7b\"", "\":500,\"details\":\"Server error\"\x7d", by decide⟩,
    ⟨"\x7b\"status\":", ",\"details\":\"Server error\"\x7d", by decide⟩⟩
  intro h a props pm s ha hm hs
  simp [BaseError.fromCatch, ha, hm, hs, jsonMessage]

/-- Witness for C5's universally quantified part, at an object with one
boolean property and no message. -/
theorem c5_witness :
    BaseError.fromCatch boolPropHeap (.ref 0)
      = .ok (boolPropHeap ++ [.baseErr (BaseError.mkNew
          (.str "\x7b\"ok\":false\x7d") [("ok", .bool false)])], .ref 1) :=
  c5_fallback_serialization.1 boolPropHeap 0
    [⟨.str "ok", .bool false, true⟩] none "\x7b\"ok\":false\x7d"
    rfl rfl rfl

/-- C6: Structured output contract: for every StructuredError (with the
JS-guaranteed uniqueness of its metadata keys), `toJSON` yields a flat
record where the fixed keys `name`, `message`, `stack` (empty string
when unavailable) and `cause` (the sentinel "Unknown Cause" when unset —
in particular for a freshly constructed BaseError) hold the error's own
fields even on a key collision with metadata (metadata is spread first,
fixed fields overwrite), and every metadata entry not named like a fixed
key appears in the record. -/
theorem c6_structured_output (e : BaseError)
    (hnd : (e.metadata.map Prod.fst).Nodup) :
    lookupRecord (BaseError.toJSON e) "name" = some (.str e.name) ∧
    lookupRecord (BaseError.toJSON e) "message" = some e.message ∧
    lookupRecord (BaseError.toJSON e) "stack"
      = some (.str (e.stack.getD "")) ∧
    lookupRecord (BaseError.toJSON e) "cause"
      = some (jsNullish e.cause (.str "Unknown Cause")) ∧
    (∀ m : JSValue, lookupRecord (BaseError.toJSON (BaseError.mkNew m []))
      "cause" = some (.str "Unknown Cause")) ∧
    (∀ k v, (k, v) ∈ e.metadata →
      k ∉ (["name", "message", "stack", "cause"] : List String) →
      (k, v) ∈ BaseError.toJSON e) := by
  unfold BaseError.toJSON
  refine ⟨?_, ?_, ?_, ?_, ?_, ?_⟩
  · rw [lookupRecord_recordSet_other _ _ _ _ (by decide),
      lookupRecord_recordSet_other _ _ _ _ (by decide),
      lookupRecord_recordSet_other _ _ _ _ (by decide),
      lookupRecord_recordSet_self]
  · rw [lookupRecord_recordSet_other _ _ _ _ (by decide),
      lookupRecord_recordSet_other _ _ _ _ (by decide),
      lookupRecord_recordSet_self]
  · rw [lookupRecord_recordSet_other _ _ _ _ (by decide),
      lookupRecord_recordSet_self]
  · rw [lookupRecord_recordSet_self]
  · intro m
    rw [lookupRecord_recordSet_self]
    simp [BaseError.mkNew, jsNullish]
  · intro k v hmem hnot
    simp only [List.mem_cons, List.not_mem_nil, or_false, not_or] at hnot
    obtain ⟨hn1, hn2, hn3, hn4⟩ := hnot
    have hmem2 : (k, v) ∈ recordOfEntries e.metadata := by
      rw [recordOfEntries_eq_self e.metadata hnd]
      exact hmem
    exact mem_recordSet_of_ne _ _ _ _ _
      (mem_recordSet_of_ne _ _ _ _ _
        (mem_recordSet_of_ne _ _ _ _ _
          (mem_recordSet_of_ne _ _ _ _ _ hmem2 hn1) hn2) hn3) hn4

/-- Witness for C6 at a BaseError with two metadata entries: the default
cause sentinel appears in the structured output. -/
theorem c6_witness :
    lookupRecord (BaseError.toJSON (BaseError.mkNew (.str "Test error") []))
      "cause" = some (.str "Unknown Cause") :=
  (c6_structured_output exampleStructured (by decide)).2.2.2.2.1
    (.str "Test error")

/-- C7: Text rendering: for every StructuredError, `toString` produces
the single line `name (message: message key1:value1 key2:value2 ...)`
with the metadata entries rendered in insertion order, space-separated,
by their default text coercion, inside the closing parenthesis; with no
metadata the result for message "Test error" is exactly
"BaseError (message: Test error )", and the class documentation's
three-entry example renders exactly as documented. -/
theorem c7_text_rendering :
    (∀ (nm : String) (msg : JSValue) (md : List (String × JSValue))
        (st : Option String) (c : JSValue),
      BaseError.toString ⟨nm, msg, md, st, c⟩
        = nm ++ " (message: " ++ jsToString msg ++ " "
            ++ String.intercalate " "
              (md.map (fun kv => kv.1 ++ ":" ++ jsToString kv.2)) ++ ")") ∧
    BaseError.toString (BaseError.mkNew (.str "Test error") [])
      = "BaseError (message: Test error )" ∧
    BaseError.toString (BaseError.mkNew (.str "Database connection failed")
        [("host", .str "localhost"), ("port", .num 5432),
         ("retries", .num 3)])
      = "BaseError (message: Database connection failed host:localhost port:5432 retries:3)" :=
  ⟨fun _ _ _ _ _ => rfl, rfl, rfl⟩

/-- C8: Metadata provenance: for every plain-object input accepted by
`fromCatch` (with the JS-guaranteed uniqueness of its entry keys), the
result's metadata is exactly `Object.entries` of the input — its own
enumerable string-keyed properties in order, values copied by reference
(the very same `JSValue`, so the same heap address for object values) —
and every metadata entry originates from an own enumerable string-keyed
property, so symbol-keyed and non-enumerable properties never reach the
metadata. -/
theorem c8_metadata_provenance (h : Heap) (a : Nat) (props : List JSProperty)
    (pm : Option JSValue) (h2 : Heap) (v : JSValue)
    (ha : h[a]? = some (.plain props pm))
    (hnd : ((jsEntries props).map Prod.fst).Nodup)
    (hok : BaseError.fromCatch h (.ref a) = .ok (h2, v)) :
    ∃ e : BaseError, v = .ref h.length ∧ h2[h.length]? = some (.baseErr e) ∧
      e.metadata = jsEntries props ∧
      ∀ k val, (k, val) ∈ e.metadata →
        ∃ p ∈ props, p.key = .str k ∧ p.enumerable = true ∧
          p.value = val := by
  obtain ⟨msg, hh2, hv⟩ := fromCatch_plain_ok h a props pm h2 v ha hok
  subst hh2
  subst hv
  refine ⟨BaseError.mkNew msg (recordOfEntries (jsEntries props)), rfl,
    getElem_append_self h _, ?_, ?_⟩
  · exact recordOfEntries_eq_self _ hnd
  · intro k val hmem
    have hmem2 : (k, val) ∈ jsEntries props := by
      have : (BaseError.mkNew msg (recordOfEntries (jsEntries props))).metadata
          = recordOfEntries (jsEntries props) := rfl
      rw [this, recordOfEntries_eq_self _ hnd] at hmem
      exact hmem
    rcases List.mem_filterMap.mp hmem2 with ⟨p, hp, hfp⟩
    have hprops : p.key = JSKey.str k ∧ p.enumerable = true ∧
        p.value = val := by
      cases hkey : p.key with
      | sym id =>
        rw [hkey] at hfp
        simp at hfp
      | str s =>
        rw [hkey] at hfp
        cases he : p.enumerable with
        | false =>
          rw [he] at hfp
          simp at hfp
        | true =>
          rw [he] at hfp
          simp at hfp
          exact ⟨by rw [hfp.1], rfl, hfp.2⟩
    exact ⟨p, hp, hprops.1, hprops.2.1, hprops.2.2⟩

/-- Witness for C8 at the mixed-property object: symbol-keyed and
non-enumerable properties are absent from the result's metadata. -/
theorem c8_witness :
    ∃ e : BaseError, JSValue.ref 1 = .ref mixedPropsHeap.length ∧
      mixedResultHeap[mixedPropsHeap.length]? = some (.baseErr e) ∧
      e.metadata = jsEntries mixedProps ∧
      ∀ k val, (k, val) ∈ e.metadata →
        ∃ p ∈ mixedProps, p.key = .str k ∧ p.enumerable = true ∧
          p.value = val :=
  c8_metadata_provenance mixedPropsHeap 0 mixedProps none
    mixedResultHeap (.ref 1) rfl (by decide) rfl

/-- C9: No side effects on the input: whenever `fromCatch` succeeds, the
input heap is untouched — every previously existing object is exactly as
before — and the only state change is the construction of the result:
either nothing is allocated (the input was already a BaseError) or
exactly one fresh BaseError is appended. -/
theorem c9_no_side_effects (h : Heap) (v : JSValue) (h2 : Heap) (r : JSValue)
    (hok : BaseError.fromCatch h v = .ok (h2, r)) :
    (∀ i, i < h.length → h2[i]? = h[i]?) ∧
    (h2 = h ∨ ∃ ne : BaseError, h2 = h ++ [.baseErr ne]) := by
  cases v
  case ref a =>
    cases hga : h[a]? with
    | none =>
      have heq : BaseError.fromCatch h (.ref a) = .error .danglingRef := by
        simp [BaseError.fromCatch, hga]
      rw [heq] at hok
      exact Except.noConfusion hok
    | some obj =>
      cases obj with
      | baseErr e =>
        have heq : BaseError.fromCatch h (.ref a) = .ok (h, .ref a) := by
          simp [BaseError.fromCatch, hga]
        rw [heq] at hok
        injection hok with hpair
        injection hpair with h1 h2eq
        subst h1
        exact ⟨fun i hi => rfl, Or.inl rfl⟩
      | plain props pm =>
        obtain ⟨msg, hh2, hv⟩ := fromCatch_plain_ok h a props pm h2 r hga hok
        subst hh2
        exact ⟨fun i hi => getElem_append_of_lt h _ i hi, Or.inr ⟨_, rfl⟩⟩
  all_goals simp [BaseError.fromCatch] at hok

/-- Witness for C9 at a native-Error-like input: the original object is
untouched and exactly one BaseError is appended. -/
theorem c9_witness :
    stdErrorHeap2 = stdErrorHeap ∨
    ∃ ne : BaseError, stdErrorHeap2 = stdErrorHeap ++ [.baseErr ne] :=
  (c9_no_side_effects stdErrorHeap (.ref 0) stdErrorHeap2 (.ref 1) rfl).2

/-- C10: Name invariant: for every non-BaseError input accepted by
`fromCatch`, the resulting StructuredError's `name` is exactly
"BaseError" — the input's own error kind is never carried into the
result's `name`, surviving at most as a metadata entry (the metadata is
exactly the spread-reduce of the input's entries). -/
theorem c10_name_invariant (h : Heap) (a : Nat) (props : List JSProperty)
    (pm : Option JSValue) (h2 : Heap) (v : JSValue)
    (ha : h[a]? = some (.plain props pm))
    (hok : BaseError.fromCatch h (.ref a) = .ok (h2, v)) :
    ∃ e : BaseError, v = .ref h.length ∧ h2[h.length]? = some (.baseErr e) ∧
      e.name = "BaseError" ∧
      e.metadata = recordOfEntries (jsEntries props) := by
  obtain ⟨msg, hh2, hv⟩ := fromCatch_plain_ok h a props pm h2 v ha hok
  subst hh2
  subst hv
  exact ⟨_, rfl, getElem_append_self h _, rfl, rfl⟩

/-- Witness for C10 at an object whose own `name` is "TypeError": the
result is still named "BaseError" and "TypeError" survives only in the
metadata. -/
theorem c10_witness :
    ∃ e : BaseError, JSValue.ref 1 = .ref namedErrorHeap.length ∧
      namedErrorResult[namedErrorHeap.length]? = some (.baseErr e) ∧
      e.name = "BaseError" ∧
      e.metadata = recordOfEntries (jsEntries namedErrorProps) :=
  c10_name_invariant namedErrorHeap 0 namedErrorProps none
    namedErrorResult (.ref 1) rfl rfl

end JsErrors
